import Mathlib

/-!
Verification development for the `pokemon` data-fetching and parsing module
(`src/pokemon/api.py`).  The Python source is shallowly embedded: each parser
method becomes a pure Lean function over an explicit document type, the network
fetch of move details becomes a function parameter, Python string methods
(`lower`, `title`, `capitalize`, `replace`) are modelled for ASCII text, and
the Python `dict` becomes an insertion-ordered association list.
-/

set_option autoImplicit false

namespace Pokemon

/-! ## String-method models (ASCII semantics of the Python methods used) -/

/-- Model of Python `str.lower()` for ASCII text: lower-case every character. -/
def pyLower (s : String) : String :=
  String.mk (s.data.map Char.toLower)

/-- Model of Python `str.capitalize()`: first character upper-cased,
all remaining characters lower-cased. -/
def pyCapitalize (s : String) : String :=
  match s.data with
  | [] => ""
  | c :: rest => String.mk (Char.toUpper c :: rest.map Char.toLower)

/-- Character loop of Python `str.title()`: the flag records whether the
previous character was cased (alphabetic, for ASCII).  A cased character that
starts a word is upper-cased, subsequent cased characters are lower-cased,
uncased characters pass through and end the current word. -/
def pyTitleAux : List Char → Bool → List Char
  | [], _ => []
  | c :: rest, prevCased =>
    if c.isAlpha then
      (if prevCased then Char.toLower c else Char.toUpper c) :: pyTitleAux rest true
    else
      c :: pyTitleAux rest false

/-- Model of Python `str.title()` for ASCII text: each word starts upper-cased
and its remaining characters are lower-cased. -/
def pyTitle (s : String) : String :=
  String.mk (pyTitleAux s.data false)

/-- Model of `s.replace("\n", " ")`: the pattern is the single newline
character, so the replacement is a character-wise map. -/
def replaceNewlineWithSpace (s : String) : String :=
  String.mk (s.data.map (fun c => if c = '\n' then ' ' else c))

/-! ## Data model: the JSON documents the parser reads -/

/-- One entry of `pokemon_data["types"]`: holds `slot["type"]["name"]`. -/
structure TypeEntry where
  typeName : String
  deriving Repr, DecidableEq

/-- One entry of `pokemon_data["stats"]`: holds `stat["stat"]["name"]` and
`stat["base_stat"]`. -/
structure StatEntry where
  statName : String
  baseStat : Int
  deriving Repr, DecidableEq

/-- One entry of `pokemon_data["abilities"]`: holds `ability["ability"]["name"]`. -/
structure AbilityEntry where
  abilityName : String
  deriving Repr, DecidableEq

/-- One entry of `pokemon_data["game_indices"]`: holds
`version["version"]["name"]` and `version["game_index"]`. -/
structure GameIndexEntry where
  versionName : String
  gameIndex : Int
  deriving Repr, DecidableEq

/-- One entry of `pokemon_data["moves"]`: holds `move["move"]["name"]` and
`move["move"]["url"]`. -/
structure MoveRef where
  name : String
  url : String
  deriving Repr, DecidableEq

/-- One entry of `move_data["flavor_text_entries"]`: holds its `flavor_text`. -/
structure FlavorTextEntry where
  flavorText : String
  deriving Repr, DecidableEq

/-- The move-detail document fetched per move: `flavor_text_entries`,
`accuracy` (which the remote data may carry as `null`, modelled by `none`)
and `damage_class.name`. -/
structure MoveDetail where
  flavorTextEntries : List FlavorTextEntry
  accuracy : Option Int
  damageClassName : String
  deriving Repr, DecidableEq

/-- The creature document returned by the primary fetch, with the sub-keys the
parser reads: `moves`, `types`, `stats`, `abilities`, `game_indices`. -/
structure PokemonData where
  moves : List MoveRef
  types : List TypeEntry
  stats : List StatEntry
  abilities : List AbilityEntry
  gameIndices : List GameIndexEntry
  deriving Repr, DecidableEq

/-- The `Move` record built by `parse_pokemon_moves` for each move entry. -/
structure Move where
  name : String
  description : String
  accuracy : Option Int
  dmg_type : String
  deriving Repr, DecidableEq

/-! ## Fetcher (`PokemonDataFetcher.__init__`) -/

/-- The resource path requested by `PokemonDataFetcher.__init__`:
the f-string embeds `pk_name.lower()` after the fixed base URL. -/
def pokemonRequestPath (pk_name : String) : String :=
  "https://pokeapi.co/api/v2/pokemon/" ++ pyLower pk_name

/-! ## Parser operations (`PokemonParser`) -/

/-- The loop of `parse_pokemon_types`: `types = []` then append
`slot["type"]["name"].title()` for each slot in order. -/
def parse_pokemon_types (d : PokemonData) : List String :=
  d.types.foldl (fun types slot => types ++ [pyTitle slot.typeName]) []

/-- Insertion into a Python `dict` modelled as an insertion-ordered
association list: assigning to an existing key updates it in place, a new key
is appended at the end. -/
def dictInsert (m : List (String × Int)) (k : String) (v : Int) :
    List (String × Int) :=
  match m with
  | [] => [(k, v)]
  | (k', v') :: rest =>
    if k' = k then (k', v) :: rest else (k', v') :: dictInsert rest k v

/-- The loop of `parse_pokemon_stats`: `stats = {}` then
`stats[stat["stat"]["name"]] = stat["base_stat"]` for each entry in order. -/
def parse_pokemon_stats (d : PokemonData) : List (String × Int) :=
  d.stats.foldl (fun stats stat => dictInsert stats stat.statName stat.baseStat) []

/-- The loop of `parse_pokemon_abilities`: `abilities = []` then append
`ability["ability"]["name"].title()` for each entry in order. -/
def parse_pokemon_abilities (d : PokemonData) : List String :=
  d.abilities.foldl (fun abilities ability => abilities ++ [pyTitle ability.abilityName]) []

/-- The loop of `parse_pokemon_game_version`: return
`version["game_index"]` for the first entry whose `version["name"]` is in
`["diamond", "black"]`; falling off the loop returns Python `None`,
modelled by `none`. -/
def gameVersionLoop : List GameIndexEntry → Option Int
  | [] => none
  | version :: rest =>
    if version.versionName ∈ (["diamond", "black"] : List String) then
      some version.gameIndex
    else
      gameVersionLoop rest

/-- `parse_pokemon_game_version` applied to the stored document. -/
def parse_pokemon_game_version (d : PokemonData) : Option Int :=
  gameVersionLoop d.gameIndices

/-- The loop of `parse_pokemon_moves`: for each move, fetch its detail
document, then index `flavor_text_entries[0]` — which raises `IndexError`
(modelled by `none` for the whole call) when that list is empty — and append
the built record.  `fetch` models `requests.get(url).json()`. -/
def movesLoop (fetch : String → MoveDetail) :
    List MoveRef → List Move → Option (List Move)
  | [], moves => some moves
  | move :: rest, moves =>
    let move_data := fetch move.url
    match move_data.flavorTextEntries with
    | [] => none
    | fte :: _ =>
      movesLoop fetch rest (moves ++
        [{ name := move.name,
           description := pyCapitalize (replaceNewlineWithSpace fte.flavorText),
           accuracy := move_data.accuracy,
           dmg_type := move_data.damageClassName }])

/-- `parse_pokemon_moves`: `moves = []` then run the loop over
`pokemon_data["moves"]`. -/
def parse_pokemon_moves (fetch : String → MoveDetail) (d : PokemonData) :
    Option (List Move) :=
  movesLoop fetch d.moves []

/-! ## Parser object with explicit state passing

`PokemonParser` holds the document; each method is embedded as a function
from the object state to the pair of its return value and the state after the
call, translated statement by statement from bodies that only read
`self.pokemon_data`. -/

/-- The `PokemonParser` object: its one attribute `pokemon_data`. -/
structure PokemonParser where
  pokemon_data : PokemonData
  deriving Repr, DecidableEq

/-- `parse_pokemon_types` as a method: reads `self.pokemon_data`, writes no
attribute. -/
def PokemonParser.typesRun (p : PokemonParser) :
    List String × PokemonParser :=
  (parse_pokemon_types p.pokemon_data, p)

/-- `parse_pokemon_stats` as a method: reads `self.pokemon_data`, writes no
attribute. -/
def PokemonParser.statsRun (p : PokemonParser) :
    List (String × Int) × PokemonParser :=
  (parse_pokemon_stats p.pokemon_data, p)

/-- `parse_pokemon_abilities` as a method: reads `self.pokemon_data`, writes
no attribute. -/
def PokemonParser.abilitiesRun (p : PokemonParser) :
    List String × PokemonParser :=
  (parse_pokemon_abilities p.pokemon_data, p)

/-- `parse_pokemon_game_version` as a method: reads `self.pokemon_data`,
writes no attribute. -/
def PokemonParser.gameVersionRun (p : PokemonParser) :
    Option Int × PokemonParser :=
  (parse_pokemon_game_version p.pokemon_data, p)

/-- `parse_pokemon_moves` as a method: reads `self.pokemon_data`, performs
the per-move fetches, writes no attribute. -/
def PokemonParser.movesRun (fetch : String → MoveDetail) (p : PokemonParser) :
    Option (List Move) × PokemonParser :=
  (parse_pokemon_moves fetch p.pokemon_data, p)

/-! ## Specification-side definitions (compared against the source) -/

/-- Modelled from the spec's glossary: "Title-case: first letter of each word
upper-cased, rest unchanged."  Word starts are detected exactly as in
`pyTitleAux`, but non-initial characters are left unchanged. -/
def titleCaseSpecAux : List Char → Bool → List Char
  | [], _ => []
  | c :: rest, prevCased =>
    if c.isAlpha then
      (if prevCased then c else Char.toUpper c) :: titleCaseSpecAux rest true
    else
      c :: titleCaseSpecAux rest false

/-- Modelled from the spec's glossary: title-case with the rest of each word
unchanged. -/
def titleCaseSpec (s : String) : String :=
  String.mk (titleCaseSpecAux s.data false)

/-- The `Move` record `parse_pokemon_moves` builds for one move reference,
written as a standalone function of the fetched detail (the first flavor-text
entry is read with a default that is only reached when the entries list is
empty, in which case the parser errors instead). -/
def mkMove (fetch : String → MoveDetail) (r : MoveRef) : Move :=
  { name := r.name,
    description := pyCapitalize (replaceNewlineWithSpace
      ((fetch r.url).flavorTextEntries.headD ⟨""⟩).flavorText),
    accuracy := (fetch r.url).accuracy,
    dmg_type := (fetch r.url).damageClassName }

/-- The keys of an association-list dict, in stored order. -/
def dictKeys (m : List (String × Int)) : List String :=
  m.map Prod.fst

/-- Deduplication keeping the first occurrence of each element, in order of
first occurrence. -/
def firstOccurrences : List String → List String
  | [] => []
  | k :: rest => k :: (firstOccurrences rest).filter (fun x => x ≠ k)

/-! ## Fixture documents (used by concrete witnesses) -/

/-- A move-detail fixture whose flavor text spans a newline. -/
def tackleDetail : MoveDetail :=
  ⟨[⟨"tackle\nattack"⟩], some 100, "physical"⟩

/-- A fetch stub returning `tackleDetail` for every URL. -/
def fetchTackle : String → MoveDetail := fun _ => tackleDetail

/-- A fetch stub whose detail document carries a null `accuracy`. -/
def fetchNoAccuracy : String → MoveDetail := fun _ => ⟨[⟨"growl"⟩], none, "status"⟩

/-- A fetch stub whose detail document has an empty `flavor_text_entries`. -/
def fetchNoFlavor : String → MoveDetail := fun _ => ⟨[], some 100, "physical"⟩

/-- A creature document with a single move reference. -/
def oneMoveDoc : PokemonData :=
  ⟨[⟨"tackle", "https://pokeapi.co/api/v2/move/33/"⟩], [], [], [], []⟩

/-! ## Helper lemmas -/

theorem gameVersionLoop_eq_find (l : List GameIndexEntry) :
    gameVersionLoop l =
      (l.find? (fun v => v.versionName == "diamond" || v.versionName == "black")).map
        (fun v => v.gameIndex) := by
  induction l with
  | nil => rfl
  | cons v rest ih =>
    by_cases h : v.versionName ∈ (["diamond", "black"] : List String)
    · have hb : (v.versionName == "diamond" || v.versionName == "black") = true := by
        simpa [List.mem_cons] using h
      simp [gameVersionLoop, h, List.find?_cons, hb]
    · have hb : (v.versionName == "diamond" || v.versionName == "black") = false := by
        simpa [List.mem_cons] using h
      simp [gameVersionLoop, h, List.find?_cons, hb, ih]

theorem gameVersionLoop_eq_none (l : List GameIndexEntry)
    (h : ∀ v ∈ l, v.versionName ∉ (["diamond", "black"] : List String)) :
    gameVersionLoop l = none := by
  induction l with
  | nil => rfl
  | cons v rest ih =>
    have hv := h v (by simp)
    simp [gameVersionLoop, hv]
    exact ih (fun x hx => h x (by simp [hx]))

theorem foldl_append_map {α β : Type} (f : α → β) (l : List α) (acc : List β) :
    l.foldl (fun res x => res ++ [f x]) acc = acc ++ l.map f := by
  induction l generalizing acc with
  | nil => simp
  | cons x rest ih => simp [ih]

theorem mem_firstOccurrences (k : String) (l : List String) :
    k ∈ firstOccurrences l ↔ k ∈ l := by
  induction l with
  | nil => simp [firstOccurrences]
  | cons x rest ih =>
    by_cases h : k = x
    · subst h; simp [firstOccurrences]
    · simp [firstOccurrences, List.mem_filter, ih, h]

theorem lookup_dictInsert (m : List (String × Int)) (k k' : String) (v : Int) :
    List.lookup k (dictInsert m k' v) =
      if k' = k then some v else List.lookup k m := by
  induction m with
  | nil =>
    by_cases h : k' = k
    · subst h; simp [dictInsert, List.lookup]
    · have hb : (k == k') = false := beq_eq_false_iff_ne.mpr (fun he => h he.symm)
      simp [dictInsert, List.lookup, hb, h]
  | cons kv rest ih =>
    obtain ⟨a, b⟩ := kv
    by_cases ha : a = k'
    · subst ha
      by_cases hk : a = k
      · subst hk; simp [dictInsert, List.lookup]
      · have hb : (k == a) = false := beq_eq_false_iff_ne.mpr (fun he => hk he.symm)
        simp [dictInsert, List.lookup, hb, hk]
    · by_cases hk : k = a
      · subst hk
        have hne : ¬ k' = k := fun he => ha he.symm
        simp [dictInsert, ha, List.lookup, hne]
      · have hb : (k == a) = false := beq_eq_false_iff_ne.mpr hk
        simp [dictInsert, ha, List.lookup, hb, ih]

theorem dictKeys_dictInsert (m : List (String × Int)) (k : String) (v : Int) :
    dictKeys (dictInsert m k v) =
      if k ∈ dictKeys m then dictKeys m else dictKeys m ++ [k] := by
  induction m with
  | nil => simp [dictInsert, dictKeys]
  | cons kv rest ih =>
    obtain ⟨a, b⟩ := kv
    by_cases h : a = k
    · subst h; simp [dictInsert, dictKeys]
    · have hne : k ≠ a := fun he => h he.symm
      simp [dictInsert, h, dictKeys, List.mem_cons, hne] at ih ⊢
      rw [ih]
      by_cases hm : k ∈ rest.map Prod.fst <;> simp [hm, hne]

theorem lookup_statsFoldl (l : List StatEntry) (m : List (String × Int)) (k : String) :
    List.lookup k
        (l.foldl (fun stats stat => dictInsert stats stat.statName stat.baseStat) m) =
      match l.reverse.find? (fun s => s.statName == k) with
      | some s => some s.baseStat
      | none => List.lookup k m := by
  induction l generalizing m with
  | nil => simp
  | cons s rest ih =>
    rw [List.foldl_cons, ih]
    rw [List.reverse_cons, List.find?_append]
    cases h : rest.reverse.find? (fun s => s.statName == k) with
    | some t => simp [h, Option.orElse]
    | none =>
      simp only [h, Option.orElse, List.find?]
      rw [lookup_dictInsert]
      by_cases hk : s.statName = k
      · simp [hk]
      · have hb : (s.statName == k) = false := beq_eq_false_iff_ne.mpr hk
        simp [hk, hb]

theorem dictKeys_statsFoldl (l : List StatEntry) (m : List (String × Int)) :
    dictKeys
        (l.foldl (fun stats stat => dictInsert stats stat.statName stat.baseStat) m) =
      dictKeys m ++ (firstOccurrences (l.map (fun s => s.statName))).filter
        (fun x => x ∉ dictKeys m) := by
  induction l generalizing m with
  | nil => simp [firstOccurrences]
  | cons s rest ih =>
    rw [List.foldl_cons, ih, dictKeys_dictInsert]
    by_cases h : s.statName ∈ dictKeys m
    · rw [if_pos h]
      congr 1
      simp only [List.map_cons, firstOccurrences]
      rw [List.filter_cons]
      rw [if_neg (by simp [h])]
      rw [List.filter_filter]
      apply List.filter_congr
      intro a ha
      by_cases hak : a = s.statName
      · subst hak; simp [h]
      · simp [hak]
    · rw [if_neg h]
      simp only [List.map_cons, firstOccurrences]
      rw [List.filter_cons]
      rw [if_pos (by simp [h])]
      rw [List.append_assoc]
      congr 1
      simp only [List.singleton_append]
      congr 1
      rw [List.filter_filter]
      apply List.filter_congr
      intro a ha
      by_cases hak : a = s.statName
      · subst hak; simp
      · simp [hak, List.mem_append]

theorem dictKeys_parse_stats (d : PokemonData) :
    dictKeys (parse_pokemon_stats d) =
      firstOccurrences (d.stats.map (fun s => s.statName)) := by
  simp only [parse_pokemon_stats]
  rw [dictKeys_statsFoldl]
  simp [dictKeys]

theorem movesLoop_eq_some (fetch : String → MoveDetail)
    (refs : List MoveRef) (acc : List Move)
    (h : ∀ r ∈ refs, (fetch r.url).flavorTextEntries ≠ []) :
    movesLoop fetch refs acc = some (acc ++ refs.map (mkMove fetch)) := by
  induction refs generalizing acc with
  | nil => simp [movesLoop]
  | cons r rest ih =>
    have hr := h r (by simp)
    match hft : (fetch r.url).flavorTextEntries with
    | [] => exact absurd hft hr
    | fte :: tail =>
      simp only [movesLoop, hft]
      rw [ih _ (fun x hx => h x (by simp [hx]))]
      simp [mkMove, hft]

theorem movesLoop_eq_none (fetch : String → MoveDetail)
    (refs : List MoveRef) (acc : List Move)
    (h : ∃ r ∈ refs, (fetch r.url).flavorTextEntries = []) :
    movesLoop fetch refs acc = none := by
  induction refs generalizing acc with
  | nil => simp at h
  | cons r rest ih =>
    obtain ⟨x, hx, hempty⟩ := h
    rcases List.mem_cons.mp hx with rfl | hx'
    · simp [movesLoop, hempty]
    · match hft : (fetch r.url).flavorTextEntries with
      | [] => simp [movesLoop, hft]
      | fte :: tail =>
        simp only [movesLoop, hft]
        exact ih _ ⟨x, hx', hempty⟩

theorem parse_moves_some_eq (fetch : String → MoveDetail) (d : PokemonData)
    (ms : List Move) (h : parse_pokemon_moves fetch d = some ms) :
    ms = d.moves.map (mkMove fetch) := by
  by_cases hall : ∀ r ∈ d.moves, (fetch r.url).flavorTextEntries ≠ []
  · have h2 := movesLoop_eq_some fetch d.moves [] hall
    simp only [parse_pokemon_moves] at h
    rw [h2] at h
    simpa using h.symm
  · push_neg at hall
    have h2 := movesLoop_eq_none fetch d.moves [] hall
    simp only [parse_pokemon_moves] at h
    rw [h2] at h
    cases h

/-! ## Claim theorems -/

/-- C1: `game_version()` returns the `game_index` of the first entry (in
document order) whose version name is exactly "diamond" or "black"; later
matching entries are never the result.  In particular, for entries
red/1, black/5, diamond/9 the result is 5. -/
theorem game_version_first_match :
    (∀ d : PokemonData,
        parse_pokemon_game_version d =
          (d.gameIndices.find?
              (fun v => v.versionName == "diamond" || v.versionName == "black")).map
            (fun v => v.gameIndex)) ∧
    parse_pokemon_game_version
        ⟨[], [], [], [], [⟨"red", 1⟩, ⟨"black", 5⟩, ⟨"diamond", 9⟩]⟩ = some 5 :=
  ⟨fun d => gameVersionLoop_eq_find d.gameIndices, by decide⟩

/-- C5: when `game_indices` is empty or has no entry named "diamond" or
"black", `game_version()` returns the explicit absent value `none` — distinct
from zero — and no error is raised (the function is total). -/
theorem game_version_no_match_absent (d : PokemonData)
    (h : ∀ v ∈ d.gameIndices,
      v.versionName ∉ (["diamond", "black"] : List String)) :
    parse_pokemon_game_version d = none ∧
      parse_pokemon_game_version d ≠ some 0 := by
  have h0 : parse_pokemon_game_version d = none := gameVersionLoop_eq_none d.gameIndices h
  exact ⟨h0, by simp [h0]⟩

/-- Witness for C5 at a document whose only game-index entry is red/1. -/
theorem game_version_no_match_absent_witness :
    parse_pokemon_game_version ⟨[], [], [], [], [⟨"red", 1⟩]⟩ = none ∧
      parse_pokemon_game_version ⟨[], [], [], [], [⟨"red", 1⟩]⟩ ≠ some 0 :=
  game_version_no_match_absent ⟨[], [], [], [], [⟨"red", 1⟩]⟩ (by decide)

/-- C3: `stats()` maps each stat name occurring in the document to the
`base_stat` of its last occurrence, its keys are exactly the stat names
present in the document, and on the hp/35, attack/55 example it yields
exactly that map. -/
theorem stats_last_write_wins :
    (∀ (d : PokemonData) (k : String),
        List.lookup k (parse_pokemon_stats d) =
          (d.stats.reverse.find? (fun s => s.statName == k)).map
            (fun s => s.baseStat)) ∧
    (∀ (d : PokemonData) (k : String),
        k ∈ dictKeys (parse_pokemon_stats d) ↔
          k ∈ d.stats.map (fun s => s.statName)) ∧
    parse_pokemon_stats ⟨[], [], [⟨"hp", 35⟩, ⟨"attack", 55⟩], [], []⟩ =
      [("hp", 35), ("attack", 55)] := by
  refine ⟨fun d k => ?_, fun d k => ?_, by decide⟩
  · simp only [parse_pokemon_stats]
    rw [lookup_statsFoldl]
    cases h : d.stats.reverse.find? (fun s => s.statName == k) <;> simp [h]
  · rw [dictKeys_parse_stats d]
    exact mem_firstOccurrences k _

/-- C10: the keys of the map returned by `stats()` appear in order of each
stat name's first occurrence in the document (duplicates update the value in
place, never the key position); on speed/10, hp/20, speed/30 the result is
speed ↦ 30 first, then hp ↦ 20. -/
theorem stats_key_order_first_occurrence :
    (∀ d : PokemonData,
        dictKeys (parse_pokemon_stats d) =
          firstOccurrences (d.stats.map (fun s => s.statName))) ∧
    parse_pokemon_stats ⟨[], [], [⟨"speed", 10⟩, ⟨"hp", 20⟩, ⟨"speed", 30⟩], [], []⟩ =
      [("speed", 30), ("hp", 20)] :=
  ⟨dictKeys_parse_stats, by decide⟩

/-- C4, counterexample: the claim defines title-case as leaving the rest of
each word unchanged, but the code applies Python `str.title()`, which
lower-cases the rest of each word: on the type name "aB" the code produces
"Ab" while the claimed title-casing produces "AB". -/
theorem types_title_case_counterexample :
    parse_pokemon_types ⟨[], [⟨"aB"⟩], [], [], []⟩ = ["Ab"] ∧
    titleCaseSpec "aB" = "AB" ∧
    parse_pokemon_types ⟨[], [⟨"aB"⟩], [], [], []⟩ ≠ [titleCaseSpec "aB"] :=
  ⟨by decide, by decide, by decide⟩

/-- C4, amended: `types()` returns a same-length sequence, in source order,
whose i-th element is the i-th type name title-cased with Python `str.title`
semantics: the first letter of each word upper-cased and the remaining
letters of each word lower-cased.  Input types ["electric"] yield
["Electric"]. -/
theorem types_title_cased_python :
    (∀ d : PokemonData,
        parse_pokemon_types d = d.types.map (fun t => pyTitle t.typeName)) ∧
    parse_pokemon_types ⟨[], [⟨"electric"⟩], [], [], []⟩ = ["Electric"] := by
  refine ⟨fun d => ?_, by decide⟩
  simp only [parse_pokemon_types]
  simpa using foldl_append_map (fun t : TypeEntry => pyTitle t.typeName) d.types []

/-- C2: each `Move` produced by `moves()` has as description the first
flavor-text entry of the fetched detail document with newlines replaced by
spaces and the whole string then capitalized (first character upper-cased,
rest lower-cased); raw flavor text "tackle\nattack" yields "Tackle attack". -/
theorem moves_description_capitalize (fetch : String → MoveDetail)
    (d : PokemonData) (ms : List Move)
    (h : parse_pokemon_moves fetch d = some ms)
    (i : Nat) (hi : i < d.moves.length) (hi' : i < ms.length)
    (fte : FlavorTextEntry) (tl : List FlavorTextEntry)
    (hft : (fetch (d.moves.get ⟨i, hi⟩).url).flavorTextEntries = fte :: tl) :
    (ms.get ⟨i, hi'⟩).description =
        pyCapitalize (replaceNewlineWithSpace fte.flavorText) ∧
    pyCapitalize (replaceNewlineWithSpace "tackle\nattack") = "Tackle attack" := by
  refine ⟨?_, by decide⟩
  have hms := parse_moves_some_eq fetch d ms h
  subst hms
  simp only [List.get_eq_getElem] at hft
  simp [List.get_eq_getElem, List.getElem_map, mkMove, hft]

/-- Witness for C2 on a one-move document and a fetch stub whose flavor text
is "tackle\nattack". -/
theorem moves_description_capitalize_witness :
    (([⟨"tackle", "Tackle attack", some 100, "physical"⟩] : List Move).get
        ⟨0, by decide⟩).description =
      pyCapitalize (replaceNewlineWithSpace
        (FlavorTextEntry.mk "tackle\nattack").flavorText) ∧
    pyCapitalize (replaceNewlineWithSpace "tackle\nattack") = "Tackle attack" :=
  moves_description_capitalize fetchTackle oneMoveDoc
    [⟨"tackle", "Tackle attack", some 100, "physical"⟩] (by decide)
    0 (by decide) (by decide) ⟨"tackle\nattack"⟩ [] (by decide)

/-- C6: each `Move` produced by `moves()` carries the fetched detail
document's accuracy field verbatim, including a null accuracy, which is
passed through as `none` without error or substitution. -/
theorem moves_accuracy_passthrough (fetch : String → MoveDetail)
    (d : PokemonData) (ms : List Move)
    (h : parse_pokemon_moves fetch d = some ms)
    (i : Nat) (hi : i < d.moves.length) (hi' : i < ms.length) :
    (ms.get ⟨i, hi'⟩).accuracy =
      (fetch (d.moves.get ⟨i, hi⟩).url).accuracy := by
  have hms := parse_moves_some_eq fetch d ms h
  subst hms
  simp [List.get_eq_getElem, List.getElem_map, mkMove]

/-- Witness for C6 on a fetch stub whose detail document has a null
accuracy: the produced move's accuracy is the stub's `none`, unchanged. -/
theorem moves_accuracy_passthrough_witness :
    (([⟨"tackle", "Growl", none, "status"⟩] : List Move).get
        ⟨0, by decide⟩).accuracy =
      (fetchNoAccuracy (oneMoveDoc.moves.get ⟨0, by decide⟩).url).accuracy :=
  moves_accuracy_passthrough fetchNoAccuracy oneMoveDoc
    [⟨"tackle", "Growl", none, "status"⟩] (by decide) 0 (by decide) (by decide)

/-- C8: when some move's fetched detail document has an empty
`flavor_text_entries`, `moves()` hits the index-out-of-bounds error
condition, modelled by the overall result `none`: no move list is produced,
so the move is neither silently skipped nor given a substitute
description. -/
theorem moves_empty_flavor_text_error (fetch : String → MoveDetail)
    (d : PokemonData)
    (h : ∃ r ∈ d.moves, (fetch r.url).flavorTextEntries = []) :
    parse_pokemon_moves fetch d = none := by
  simp only [parse_pokemon_moves]
  exact movesLoop_eq_none fetch d.moves [] h

/-- Witness for C8 on a one-move document and a fetch stub returning an
empty `flavor_text_entries`. -/
theorem moves_empty_flavor_text_error_witness :
    parse_pokemon_moves fetchNoFlavor oneMoveDoc = none :=
  moves_empty_flavor_text_error fetchNoFlavor oneMoveDoc (by decide)

/-- C7: two creature names that agree after lower-casing each character —
names differing only in letter case — yield the identical request path,
because the constructor lower-cases the name before embedding it in the
path. -/
theorem request_path_case_insensitive (a b : String)
    (h : a.data.map Char.toLower = b.data.map Char.toLower) :
    pokemonRequestPath a = pokemonRequestPath b := by
  simp [pokemonRequestPath, pyLower, h]

/-- Witness for C7: "Pikachu" and "pikachu" request the identical path. -/
theorem request_path_case_insensitive_witness :
    pokemonRequestPath "Pikachu" = pokemonRequestPath "pikachu" :=
  request_path_case_insensitive "Pikachu" "pikachu" (by decide)

/-- C9: every parser operation leaves the stored document unchanged (the
state after each call equals the state before it), and each result is a pure
function of the document (plus, for moves, the fetch): two parsers holding
equal documents return equal results. -/
theorem parser_document_immutable (p q : PokemonParser)
    (fetch : String → MoveDetail) (h : p.pokemon_data = q.pokemon_data) :
    p.typesRun.2 = p ∧ p.statsRun.2 = p ∧ p.abilitiesRun.2 = p ∧
    p.gameVersionRun.2 = p ∧ (p.movesRun fetch).2 = p ∧
    p.typesRun.1 = q.typesRun.1 ∧ p.statsRun.1 = q.statsRun.1 ∧
    p.abilitiesRun.1 = q.abilitiesRun.1 ∧
    p.gameVersionRun.1 = q.gameVersionRun.1 ∧
    (p.movesRun fetch).1 = (q.movesRun fetch).1 := by
  obtain ⟨d1⟩ := p
  obtain ⟨d2⟩ := q
  have hd : d1 = d2 := h
  subst hd
  exact ⟨rfl, rfl, rfl, rfl, rfl, rfl, rfl, rfl, rfl, rfl⟩

/-- Witness for C9 at a parser holding the one-move fixture document. -/
theorem parser_document_immutable_witness :
    (PokemonParser.mk oneMoveDoc).typesRun.2 = PokemonParser.mk oneMoveDoc ∧
    (PokemonParser.mk oneMoveDoc).statsRun.2 = PokemonParser.mk oneMoveDoc ∧
    (PokemonParser.mk oneMoveDoc).abilitiesRun.2 = PokemonParser.mk oneMoveDoc ∧
    (PokemonParser.mk oneMoveDoc).gameVersionRun.2 = PokemonParser.mk oneMoveDoc ∧
    ((PokemonParser.mk oneMoveDoc).movesRun fetchTackle).2 = PokemonParser.mk oneMoveDoc ∧
    (PokemonParser.mk oneMoveDoc).typesRun.1 = (PokemonParser.mk oneMoveDoc).typesRun.1 ∧
    (PokemonParser.mk oneMoveDoc).statsRun.1 = (PokemonParser.mk oneMoveDoc).statsRun.1 ∧
    (PokemonParser.mk oneMoveDoc).abilitiesRun.1 = (PokemonParser.mk oneMoveDoc).abilitiesRun.1 ∧
    (PokemonParser.mk oneMoveDoc).gameVersionRun.1 = (PokemonParser.mk oneMoveDoc).gameVersionRun.1 ∧
    ((PokemonParser.mk oneMoveDoc).movesRun fetchTackle).1 =
      ((PokemonParser.mk oneMoveDoc).movesRun fetchTackle).1 :=
  parser_document_immutable (PokemonParser.mk oneMoveDoc)
    (PokemonParser.mk oneMoveDoc) fetchTackle rfl

end Pokemon
